import Mathlib

/-!
Shallow embedding of the TLE decoding and propagation pipeline of the
MECH-542 repository (`orbit_3d_plots.py`, `orbit_3d_norad63130.py`, and the
unnamed element-history script).  Numeric values are modelled exactly:
`ℚ` stands in for Python floats in the executable pipeline, and `ℝ` is used
where the source computes with `np.pi`.  The external SGP4 propagation
capability (`sgp4.api.Satrec`) is modelled as an abstract record carrying the
fields the scripts read (`no_kozai`, `jdsatepoch`, `jdsatepochF`) together
with its `sgp4` evaluation function.  Python string primitives (`strip`,
`startswith`, slicing, `split`, `int`, `float`) are modelled by structurally
recursive functions on `List Char` so that they evaluate inside Lean.
-/

/-! ## Python string primitives -/

/-- Numeric value of a list of decimal digit characters (most significant
first), as `int` computes it for a digit string. -/
def digitsVal (cs : List Char) : ℕ :=
  cs.foldl (fun a c => 10 * a + (c.toNat - 48)) 0

/-- Split a character list into its maximal leading run of decimal digits
and the remainder (the behaviour of a greedy `[0-9]*` scan). -/
def digitRun : List Char → List Char × List Char
  | [] => ([], [])
  | c :: cs =>
    if c.isDigit then
      let p := digitRun cs
      (c :: p.1, p.2)
    else ([], c :: cs)

/-- Drop leading whitespace characters. -/
def dropLeadingWs (cs : List Char) : List Char :=
  match cs with
  | [] => []
  | c :: rest => if c.isWhitespace then dropLeadingWs rest else c :: rest

/-- Python `str.strip()`: remove leading and trailing whitespace. -/
def pyStripChars (cs : List Char) : List Char :=
  (dropLeadingWs (dropLeadingWs cs.reverse).reverse)

/-- `str.strip()` on a `String`. -/
def pyStrip (s : String) : String :=
  ⟨pyStripChars s.data⟩

/-- Python `str.startswith(pre)` as a character-list test. -/
def startsWithChars : List Char → List Char → Bool
  | _, [] => true
  | [], _ :: _ => false
  | c :: cs, p :: ps => c = p && startsWithChars cs ps

/-- `s.startswith(pre)` on `String`s. -/
def pyStartsWith (s pre : String) : Bool :=
  startsWithChars s.data pre.data

/-- Python slice `s[a:b]` for `0 ≤ a ≤ b` (clamped at the string length). -/
def pySlice (s : String) (a b : ℕ) : String :=
  ⟨(s.data.drop a).take (b - a)⟩

/-- String concatenation, e.g. the `"0." + field` eccentricity rebuild. -/
def pyConcat (a b : String) : String :=
  ⟨a.data ++ b.data⟩

/-- The characters before the first dot: `s.split('.')[0]`. -/
def takeUntilDot : List Char → List Char
  | [] => []
  | c :: cs => if c = '.' then [] else c :: takeUntilDot cs

/-- An unsigned Python float literal: `digits`, `digits.`, `.digits` or
`digits.digits`, consuming the whole input. -/
def parseUnsigned (cs : List Char) : Option ℚ :=
  let p := digitRun cs
  match p.2 with
  | [] => if p.1 = [] then none else some (digitsVal p.1 : ℚ)
  | '.' :: r2 =>
    let q := digitRun r2
    if q.2 = [] ∧ (p.1 ≠ [] ∨ q.1 ≠ []) then
      some ((digitsVal p.1 : ℚ) + (digitsVal q.1 : ℚ) / 10 ^ q.1.length)
    else none
  | _ => none

/-- Python `float(s)` on the plain decimal literals used by the scripts:
surrounding whitespace is stripped and an optional sign is honoured
(exponent and special forms never occur in the extracted columns). -/
def parseFloat (s : String) : Option ℚ :=
  match pyStripChars s.data with
  | '+' :: r => parseUnsigned r
  | '-' :: r => (parseUnsigned r).map Neg.neg
  | r => parseUnsigned r

/-- Nonempty all-digit strings, the shape `int` accepts after sign removal. -/
def parseNatDigits (cs : List Char) : Option ℕ :=
  if cs ≠ [] ∧ cs.all Char.isDigit then some (digitsVal cs) else none

/-- Python `int(s)` on decimal strings. -/
def pyInt (cs : List Char) : Option ℤ :=
  match pyStripChars cs with
  | '-' :: r => (parseNatDigits r).map (fun n => -(n : ℤ))
  | '+' :: r => (parseNatDigits r).map (fun n => (n : ℤ))
  | r => (parseNatDigits r).map (fun n => (n : ℤ))

/-! ## Epoch normalization (`orbit_3d_norad63130.py` lines 24–34,
`src/unnamed/part_000` lines 31–41) -/

/-- Python `int(q)` on a float: truncation toward zero. -/
def pythonIntTrunc (q : ℚ) : ℤ :=
  if 0 ≤ q then ⌊q⌋ else ⌈q⌉

/-- The normalized epoch: the year together with the values the scripts
compute on the way to `datetime(year, 1, 1) + timedelta(days = day_of_year
- 1 + frac_day)`; `offsetDaysFromJan1` is that `timedelta` argument. -/
structure EpochTimestamp where
  year : ℤ
  dayOfYear : ℤ
  fracDay : ℚ
  offsetDaysFromJan1 : ℚ
deriving DecidableEq, Repr

/-- The arithmetic core of the epoch normalization: from the raw epoch
value and the two leading digits, strip the year multiple, split
integer/fraction, and form the day offset from January 1. -/
def epochDecompose (raw : ℚ) (yy : ℤ) : EpochTimestamp :=
  let year := 2000 + yy
  let eff := raw - (yy : ℚ) * 1000
  let day := pythonIntTrunc eff
  let frac := eff - (day : ℚ)
  ⟨year, day, frac, (day : ℚ) - 1 + frac⟩

/-- Normalize one raw epoch field string (`YYDDD.FFFFFFFF`): `float` the
field, `int` its first two characters before the dot, and decompose. -/
def normalizeEpochField (field : String) : Option EpochTimestamp := do
  let raw ← parseFloat field
  let yy ← pyInt ((takeUntilDot field.data).take 2)
  pure (epochDecompose raw yy)

/-! ## Epoch-field search and element extraction
(the regex `\s(\d{5}\.\d+)` and the fixed-column parses of the
module-level loops) -/

/-- Try to match the epoch pattern at the head of the character list:
a whitespace character, exactly five digits, a dot, and at least one digit;
the captured group is the five digits, the dot and the maximal digit run. -/
def matchEpochHere (cs : List Char) : Option (List Char) :=
  match cs with
  | [] => none
  | c :: rest =>
    if c.isWhitespace then
      let p := digitRun rest
      if p.1.length = 5 then
        match p.2 with
        | '.' :: r2 =>
          let q := digitRun r2
          if q.1 = [] then none else some (p.1 ++ '.' :: q.1)
        | _ => none
      else none
    else none

/-- `re.search(r"\s(\d{5}\.\d+)", line)`: first match over all start
positions, left to right. -/
def findEpochField : List Char → Option (List Char)
  | [] => none
  | c :: rest =>
    match matchEpochHere (c :: rest) with
    | some g => some g
    | none => findEpochField rest

/-- One parsed TLE record: the normalized epoch and the six fixed-column
numeric fields of line 2. -/
structure TLEElements where
  epoch : EpochTimestamp
  incl : ℚ
  raan : ℚ
  ecc : ℚ
  argp : ℚ
  mean_anom : ℚ
  mean_motion : ℚ
deriving DecidableEq, Repr

/-- The body of the module-level parsing loop for one line-pair: find the
epoch field on line 1, normalize it, and extract the fixed-column floats
from line 2 (`float("0." + line2[26:33].strip())` for eccentricity); any
failure skips the pair (`none`, the broad `except` of the source). -/
def extractElements (line1 line2 : String) : Option TLEElements := do
  let field ← findEpochField line1.data
  let epoch ← normalizeEpochField ⟨field⟩
  let incl ← parseFloat (pySlice line2 8 16)
  let raan ← parseFloat (pySlice line2 17 25)
  let ecc ← parseFloat (pyConcat "0." (pyStrip (pySlice line2 26 33)))
  let argp ← parseFloat (pySlice line2 34 42)
  let mean_anom ← parseFloat (pySlice line2 43 51)
  let mean_motion ← parseFloat (pySlice line2 52 63)
  pure ⟨epoch, incl, raan, ecc, argp, mean_anom, mean_motion⟩

/-! ## TLE record reader (`read_tle_file`, `orbit_3d_plots.py` lines 28–46) -/

/-- `[ln.strip() for ln in f if ln.strip()]`: the stripped non-blank lines
in original order. -/
def cleanLines (rawLines : List String) : List String :=
  (rawLines.filter (fun ln => !(pyStrip ln).data.isEmpty)).map pyStrip

/-- The realignment loop: while two lines remain, pair them when they start
with `"1 "` and `"2 "` and advance by two, otherwise advance by one. -/
def scanPairs : List String → List (String × String)
  | [] => []
  | [_] => []
  | l1 :: l2 :: rest2 =>
    if pyStartsWith l1 "1 " && pyStartsWith l2 "2 " then
      (l1, l2) :: scanPairs rest2
    else
      scanPairs (l2 :: rest2)
termination_by ls => ls.length
decreasing_by
  all_goals simp
  omega

/-- `read_tle_file`: clean the lines, scan for pairs, and raise
`ValueError("No TLE pairs found ...")` when no pair was found.  (The
`FileNotFoundError` path concerns file discovery which is out of scope;
input is modelled as the list of read lines.) -/
def read_tle_file (rawLines : List String) : Except String (List (String × String)) :=
  let pairs := scanPairs (cleanLines rawLines)
  if pairs = [] then Except.error "No TLE pairs found" else Except.ok pairs

/-! ## Orbit sampler (`orbit_3d_plots.py` lines 49–79) -/

/-- Three-component position vector, as produced by the propagator (km). -/
structure Vec3 (α : Type) where
  x : α
  y : α
  z : α
deriving DecidableEq, Repr

/-- Abstract model of the external `sgp4.api.Satrec` object: the fields the
scripts read, plus the `sgp4` call which returns an error code and a
position (the velocity, unused by the scripts, is not modelled). -/
structure Satrec (α : Type) where
  no_kozai : α
  jdsatepoch : α
  jdsatepochF : α
  sgp4 : α → α → ℤ × Vec3 α

/-- `np.arange(start, stop, step)` for positive `step`: the values
`start + k*step` for `0 ≤ k < ⌈(stop - start)/step⌉` (numpy's half-open
interval semantics, empty when `stop ≤ start`). -/
def arange {α : Type} [LinearOrderedField α] [FloorRing α]
    (start stop step : α) : List α :=
  (List.range (⌈(stop - start) / step⌉).toNat).map fun k : ℕ => start + (k : α) * step

/-- The time grid of `propagate_arc`:
`tsince = np.arange(0.0, minutes + step_min, step_min)`. -/
def tsince {α : Type} [LinearOrderedField α] [FloorRing α]
    (minutes step_min : α) : List α :=
  arange 0 (minutes + step_min) step_min

/-- `np.column_stack([xs, ys, zs])`: rebuild an N×3 array from the three
coordinate lists (the lists have equal length in every use below). -/
def columnStack {α : Type} : List α → List α → List α → List (Vec3 α)
  | xc :: xs, yc :: ys, zc :: zs => ⟨xc, yc, zc⟩ :: columnStack xs ys zs
  | _, _, _ => []

/-- One propagator invocation of the sampling loop:
`sat.sgp4(jd, fr + dt_min / (24.0 * 60.0))`. -/
def sampleAt {α : Type} [LinearOrderedField α] (sat : Satrec α) (dt_min : α) :
    ℤ × Vec3 α :=
  sat.sgp4 sat.jdsatepoch (sat.jdsatepochF + dt_min / (24 * 60))

/-- `propagate_arc(sat, minutes, step_min)`: walk the grid, call the
propagator, skip samples whose error code is non-zero, accumulate the three
coordinate lists, and stack them into the returned trajectory. -/
def propagate_arc {α : Type} [LinearOrderedField α] [FloorRing α]
    (sat : Satrec α) (minutes : α) (step_min : α) : List (Vec3 α) :=
  let acc := (tsince minutes step_min).foldl
    (fun (a : List α × List α × List α) dt_min =>
      let er := sampleAt sat dt_min
      if er.1 ≠ 0 then a
      else (a.1 ++ [er.2.x], a.2.1 ++ [er.2.y], a.2.2 ++ [er.2.z]))
    ([], [], [])
  columnStack acc.1 acc.2.1 acc.2.2

/-- `orbit_period_minutes(sat)`: `2.0 * np.pi / sat.no_kozai`. -/
noncomputable def orbit_period_minutes (sat : Satrec ℝ) : ℝ :=
  2 * Real.pi / sat.no_kozai

/-! ## Equal-aspect bounding (`set_equal_aspect_3d`, lines 82–90) -/

/-- `np.max` over a list (`0` stands in for the error numpy raises on an
empty input; every theorem below assumes a nonempty list). -/
def listMax {α : Type} [LinearOrderedField α] : List α → α
  | [] => 0
  | a :: l => l.foldl max a

/-- `np.min` over a list (same empty-input convention as `listMax`). -/
def listMin {α : Type} [LinearOrderedField α] : List α → α
  | [] => 0
  | a :: l => l.foldl min a

/-- `np.ptp`: peak-to-peak extent, `max - min`. -/
def ptpList {α : Type} [LinearOrderedField α] (l : List α) : α :=
  listMax l - listMin l

/-- The cubic viewing volume `set_equal_aspect_3d` installs:
axis limits are `center ± halfExtent` on each axis. -/
structure BoundingBox (α : Type) where
  center : Vec3 α
  halfExtent : α
deriving DecidableEq, Repr

/-- `set_equal_aspect_3d(ax, X)`: componentwise peak-to-peak extents, the
largest extent as the cube size, and per-axis midpoints as the center. -/
def set_equal_aspect_3d {α : Type} [LinearOrderedField α]
    (X : List (Vec3 α)) : BoundingBox α :=
  let xs := X.map Vec3.x
  let ys := X.map Vec3.y
  let zs := X.map Vec3.z
  let max_range := max (max (ptpList xs) (ptpList ys)) (ptpList zs)
  let mid_x := (listMax xs + listMin xs) / 2
  let mid_y := (listMax ys + listMin ys) / 2
  let mid_z := (listMax zs + listMin zs) / 2
  ⟨⟨mid_x, mid_y, mid_z⟩, max_range / 2⟩

/-! ## Rendering pipeline data flow (`render_orbit_png`, lines 103–153) -/

/-- The data `render_orbit_png` derives from its input before plotting:
read the pairs, take the latest (`pairs[-1]`), build the satellite, compute
the period, propagate `arc_periods` periods, and parse the inclination from
line 2 (`None` models the `except: inc_deg = np.nan` branch).  Plotting and
file output are out of scope; the function returns the propagated
positions, the reported inclination and the reported period. -/
noncomputable def render_orbit_data (twoline2rv : String → String → Satrec ℝ)
    (rawLines : List String) (arc_periods step_min : ℝ) :
    Option (List (Vec3 ℝ) × Option ℚ × ℝ) :=
  match read_tle_file rawLines with
  | Except.error _ => none
  | Except.ok pairs =>
    match pairs.getLast? with
    | none => none
    | some pr =>
      let sat := twoline2rv pr.1 pr.2
      let T_min := orbit_period_minutes sat
      let minutes := arc_periods * T_min
      let r_eci := propagate_arc sat minutes step_min
      let inc_deg := parseFloat (pySlice pr.2 8 16)
      some (r_eci, inc_deg, T_min)

/-! ## Concrete instances used in the witness and counterexample theorems -/

/-- A propagator model whose every call fails with error code 6. -/
def failSat : Satrec ℚ := ⟨1, 0, 0, fun _ _ => (6, ⟨0, 0, 0⟩)⟩

/-- A propagator model whose every call fails with error code 1. -/
def failSatOne : Satrec ℚ := ⟨1, 0, 0, fun _ _ => (1, ⟨0, 0, 0⟩)⟩

/-- A propagator model that fails exactly at the second grid point of a
half-minute grid (absolute fractional day `1/2880`) and otherwise reports
the fractional-day argument as the x coordinate. -/
def mixedSat : Satrec ℚ :=
  ⟨1, 0, 0, fun _ fr => (if fr = 1 / 2880 then 1 else 0, ⟨fr, 0, 0⟩)⟩

/-- A real-valued satellite model with unit normalized mean motion. -/
noncomputable def satExample : Satrec ℝ := ⟨1, 0, 0, fun _ _ => (0, ⟨0, 0, 0⟩)⟩

/-- A well-formed TLE line 1 whose epoch field is `25143.57154119`. -/
def lineOneExample : String := "1 63130U 25055A 25143.57154119"

/-- A well-formed TLE line 2 with the standard fixed columns. -/
def lineTwoExample : String :=
  "2 63130  82.9706 123.4567 0001234  90.1234 270.0000 12.40123456"

/-- The element set extracted from `lineOneExample`/`lineTwoExample`. -/
def exampleElements : TLEElements :=
  ⟨⟨2025, 143, 57154119 / 10 ^ 8, 142 + 57154119 / 10 ^ 8⟩,
    82 + 9706 / 10 ^ 4, 123 + 4567 / 10 ^ 4, 0 + 1234 / 10 ^ 7,
    90 + 1234 / 10 ^ 4, 270 + 0 / 10 ^ 4, 12 + 40123456 / 10 ^ 8⟩

/-! ## Supporting lemmas: the sampling grid -/

section GridLemmas
variable {α : Type} [LinearOrderedField α] [FloorRing α]

lemma tsince_eq_map (S h : α) :
    tsince S h = (List.range (⌈(S + h) / h⌉).toNat).map fun k : ℕ => (k : α) * h := by
  unfold tsince arange
  simp only [sub_zero, zero_add]

lemma mem_tsince {S h : α} (hh : 0 < h) {x : α} :
    x ∈ tsince S h ↔ ∃ k : ℕ, x = (k : α) * h ∧ (k : α) * h < S + h := by
  rw [tsince_eq_map]
  simp only [List.mem_map, List.mem_range]
  constructor
  · rintro ⟨k, hk, rfl⟩
    refine ⟨k, rfl, ?_⟩
    have h1 : (k : ℤ) < ⌈(S + h) / h⌉ := Int.lt_toNat.mp hk
    have h2 : (k : α) < (S + h) / h := by exact_mod_cast Int.lt_ceil.mp h1
    calc (k : α) * h < ((S + h) / h) * h := mul_lt_mul_of_pos_right h2 hh
      _ = S + h := div_mul_cancel₀ _ (ne_of_gt hh)
  · rintro ⟨k, rfl, hlt⟩
    refine ⟨k, ?_, rfl⟩
    have h2 : (k : α) < (S + h) / h := (lt_div_iff₀ hh).mpr hlt
    have h1 : (k : ℤ) < ⌈(S + h) / h⌉ := Int.lt_ceil.mpr (by exact_mod_cast h2)
    exact Int.lt_toNat.mpr h1

lemma range_map_getLast {β : Type} (f : ℕ → β) {n : ℕ} (hn : n ≠ 0) :
    ((List.range n).map f).getLast? = some (f (n - 1)) := by
  obtain ⟨m, rfl⟩ := Nat.exists_eq_succ_of_ne_zero hn
  rw [List.range_succ, List.map_append]
  simp

lemma ceil_span (S h : α) (hh : 0 < h) : ⌈(S + h) / h⌉ = ⌈S / h⌉ + 1 := by
  rw [add_div, div_self (ne_of_gt hh), Int.ceil_add_one]

lemma tsince_getLast {S h : α} (hS : 0 ≤ S) (hh : 0 < h) :
    (tsince S h).getLast? = some ((⌈S / h⌉ : α) * h) := by
  rw [tsince_eq_map, ceil_span S h hh]
  have hpos : 0 ≤ ⌈S / h⌉ := Int.ceil_nonneg (div_nonneg hS hh.le)
  have hne : (⌈S / h⌉ + 1).toNat ≠ 0 := by omega
  rw [range_map_getLast _ hne]
  have h1 : ((⌈S / h⌉ + 1).toNat - 1 : ℕ) = (⌈S / h⌉).toNat := by omega
  rw [h1]
  have h2 : (((⌈S / h⌉).toNat : ℕ) : α) = ((⌈S / h⌉ : ℤ) : α) := by
    rw [← Int.cast_natCast, Int.toNat_of_nonneg hpos]
  rw [h2]

lemma le_ceil_mul {S h : α} (hh : 0 < h) : S ≤ (⌈S / h⌉ : α) * h := by
  rw [← div_le_iff₀ hh]
  exact Int.le_ceil _

lemma ceil_mul_lt {S h : α} (hh : 0 < h) : (⌈S / h⌉ : α) * h < S + h := by
  have h1 : (⌈S / h⌉ : α) < S / h + 1 := Int.ceil_lt_add_one _
  calc (⌈S / h⌉ : α) * h < (S / h + 1) * h := mul_lt_mul_of_pos_right h1 hh
    _ = S + h := by field_simp

lemma tsince_pairwise {S h : α} (hh : 0 < h) :
    List.Pairwise (· < ·) (tsince S h) := by
  rw [tsince_eq_map, List.pairwise_map]
  refine (List.pairwise_lt_range _).imp ?_
  intro a b hab
  exact mul_lt_mul_of_pos_right (by exact_mod_cast hab) hh

lemma ceil_mul_of_multiple {S h : α} (hh : 0 < h) {m : ℕ} (hm : S = m * h) :
    (⌈S / h⌉ : α) * h = S := by
  subst hm
  rw [mul_div_assoc, div_self (ne_of_gt hh), mul_one]
  norm_num

end GridLemmas

/-! ## Supporting lemmas: the sampling loop -/

lemma columnStack_map {α β : Type} (f g k : β → α) (l : List β) :
    columnStack (l.map f) (l.map g) (l.map k) =
      l.map fun b => Vec3.mk (f b) (g b) (k b) := by
  induction l with
  | nil => rfl
  | cons b l ih => simp [columnStack, ih]

section SamplerLemmas
variable {α : Type} [LinearOrderedField α]

lemma propagate_fold_eq (sat : Satrec α) (ts : List α) :
    ∀ ax ay az : List α,
      ts.foldl
        (fun (a : List α × List α × List α) dt_min =>
          let er := sampleAt sat dt_min
          if er.1 ≠ 0 then a
          else (a.1 ++ [er.2.x], a.2.1 ++ [er.2.y], a.2.2 ++ [er.2.z]))
        (ax, ay, az) =
      (ax ++ (ts.filter fun dt => (sampleAt sat dt).1 == 0).map
          (fun dt => (sampleAt sat dt).2.x),
       ay ++ (ts.filter fun dt => (sampleAt sat dt).1 == 0).map
          (fun dt => (sampleAt sat dt).2.y),
       az ++ (ts.filter fun dt => (sampleAt sat dt).1 == 0).map
          (fun dt => (sampleAt sat dt).2.z)) := by
  induction ts with
  | nil => intro ax ay az; simp
  | cons dt ts ih =>
    intro ax ay az
    by_cases hdt : (sampleAt sat dt).1 = 0
    · simp only [List.foldl_cons, List.filter_cons]
      rw [if_neg (not_not_intro hdt), ih]
      have hb : ((sampleAt sat dt).1 == 0) = true := by simpa using hdt
      rw [hb]
      simp
    · simp only [List.foldl_cons, List.filter_cons]
      rw [if_pos hdt]
      have hb : ((sampleAt sat dt).1 == 0) = false := by simpa using hdt
      rw [hb]
      simp only [Bool.false_eq_true, if_false]
      exact ih ax ay az

/-- `propagate_arc` returns exactly the positions of the grid points whose
propagator call succeeded, in grid order. -/
lemma propagate_arc_eq_filter [FloorRing α] (sat : Satrec α) (minutes step_min : α) :
    propagate_arc sat minutes step_min =
      ((tsince minutes step_min).filter fun dt => (sampleAt sat dt).1 == 0).map
        (fun dt => (sampleAt sat dt).2) := by
  unfold propagate_arc
  rw [propagate_fold_eq]
  simp only [List.nil_append]
  rw [columnStack_map]

/-- When every grid point fails, the returned trajectory is the empty list
(no exception is raised). -/
lemma propagate_arc_all_fail [FloorRing α] (sat : Satrec α) (minutes step_min : α)
    (hfail : ∀ dt ∈ tsince minutes step_min, (sampleAt sat dt).1 ≠ 0) :
    propagate_arc sat minutes step_min = [] := by
  rw [propagate_arc_eq_filter]
  have h : (tsince minutes step_min).filter
      (fun dt => (sampleAt sat dt).1 == 0) = [] := by
    rw [List.filter_eq_nil_iff]
    intro a ha
    simpa using hfail a ha
  rw [h, List.map_nil]

end SamplerLemmas

/-! ## Supporting lemmas: componentwise extrema -/

section ExtremaLemmas
variable {α : Type} [LinearOrderedField α]

lemma foldl_max_init_le : ∀ (l : List α) (x : α), x ≤ l.foldl max x
  | [], _ => le_refl _
  | c :: l, x => le_trans (le_max_left x c) (foldl_max_init_le l (max x c))

lemma le_foldl_max (l : List α) : ∀ (x a : α), a ∈ l → a ≤ l.foldl max x := by
  induction l with
  | nil => intro x a ha; exact absurd ha (List.not_mem_nil a)
  | cons c l ih =>
    intro x a ha
    rcases List.mem_cons.mp ha with rfl | h
    · exact le_trans (le_max_right x a) (foldl_max_init_le l (max x a))
    · exact ih (max x c) a h

lemma foldl_max_mem (l : List α) : ∀ x : α, l.foldl max x = x ∨ l.foldl max x ∈ l := by
  induction l with
  | nil => intro x; exact Or.inl rfl
  | cons c l ih =>
    intro x
    rcases ih (max x c) with h | h
    · rcases max_choice x c with hx | hc
      · left; rw [List.foldl_cons, h, hx]
      · right; rw [List.foldl_cons, h, hc]; exact List.mem_cons_self c l
    · right; exact List.mem_cons_of_mem _ h

lemma foldl_min_le_init : ∀ (l : List α) (x : α), l.foldl min x ≤ x
  | [], _ => le_refl _
  | c :: l, x => le_trans (foldl_min_le_init l (min x c)) (min_le_left x c)

lemma foldl_min_le (l : List α) : ∀ (x a : α), a ∈ l → l.foldl min x ≤ a := by
  induction l with
  | nil => intro x a ha; exact absurd ha (List.not_mem_nil a)
  | cons c l ih =>
    intro x a ha
    rcases List.mem_cons.mp ha with rfl | h
    · exact le_trans (foldl_min_le_init l (min x a)) (min_le_right x a)
    · exact ih (min x c) a h

lemma foldl_min_mem (l : List α) : ∀ x : α, l.foldl min x = x ∨ l.foldl min x ∈ l := by
  induction l with
  | nil => intro x; exact Or.inl rfl
  | cons c l ih =>
    intro x
    rcases ih (min x c) with h | h
    · rcases min_choice x c with hx | hc
      · left; rw [List.foldl_cons, h, hx]
      · right; rw [List.foldl_cons, h, hc]; exact List.mem_cons_self c l
    · right; exact List.mem_cons_of_mem _ h

lemma le_listMax {l : List α} {a : α} (ha : a ∈ l) : a ≤ listMax l := by
  cases l with
  | nil => exact absurd ha (List.not_mem_nil a)
  | cons c l =>
    rcases List.mem_cons.mp ha with rfl | h
    · exact foldl_max_init_le l a
    · exact le_foldl_max l c a h

lemma listMax_mem {l : List α} (h : l ≠ []) : listMax l ∈ l := by
  cases l with
  | nil => exact absurd rfl h
  | cons c l =>
    rcases foldl_max_mem l c with hc | hm
    · rw [listMax, hc]; exact List.mem_cons_self c l
    · exact List.mem_cons_of_mem _ hm

lemma listMin_le {l : List α} {a : α} (ha : a ∈ l) : listMin l ≤ a := by
  cases l with
  | nil => exact absurd ha (List.not_mem_nil a)
  | cons c l =>
    rcases List.mem_cons.mp ha with rfl | h
    · exact foldl_min_le_init l a
    · exact foldl_min_le l c a h

lemma listMin_mem {l : List α} (h : l ≠ []) : listMin l ∈ l := by
  cases l with
  | nil => exact absurd rfl h
  | cons c l =>
    rcases foldl_min_mem l c with hc | hm
    · rw [listMin, hc]; exact List.mem_cons_self c l
    · exact List.mem_cons_of_mem _ hm

lemma listMax_le_listMax_append_left {l₁ l₂ : List α} (h : l₁ ≠ []) :
    listMax l₁ ≤ listMax (l₁ ++ l₂) :=
  le_listMax (List.mem_append_left l₂ (listMax_mem h))

lemma listMax_le_listMax_append_right {l₁ l₂ : List α} (h : l₂ ≠ []) :
    listMax l₂ ≤ listMax (l₁ ++ l₂) :=
  le_listMax (List.mem_append_right l₁ (listMax_mem h))

lemma listMin_append_le_left {l₁ l₂ : List α} (h : l₁ ≠ []) :
    listMin (l₁ ++ l₂) ≤ listMin l₁ :=
  listMin_le (List.mem_append_left l₂ (listMin_mem h))

lemma listMin_append_le_right {l₁ l₂ : List α} (h : l₂ ≠ []) :
    listMin (l₁ ++ l₂) ≤ listMin l₂ :=
  listMin_le (List.mem_append_right l₁ (listMin_mem h))

lemma ptpList_le_append_left {l₁ l₂ : List α} (h : l₁ ≠ []) :
    ptpList l₁ ≤ ptpList (l₁ ++ l₂) :=
  sub_le_sub (listMax_le_listMax_append_left h) (listMin_append_le_left h)

lemma ptpList_le_append_right {l₁ l₂ : List α} (h : l₂ ≠ []) :
    ptpList l₂ ≤ ptpList (l₁ ++ l₂) :=
  sub_le_sub (listMax_le_listMax_append_right h) (listMin_append_le_right h)

end ExtremaLemmas

/-! ## Supporting lemmas: the record reader -/

/-- The lines of a pair list, in order (used to state that the reader
consumes lines in their original order). -/
def pairFlatten : List (String × String) → List String
  | [] => []
  | p :: ps => p.1 :: p.2 :: pairFlatten ps

lemma scanPairs_startsWith :
    ∀ (ls : List String), ∀ p ∈ scanPairs ls,
      pyStartsWith p.1 "1 " = true ∧ pyStartsWith p.2 "2 " = true := by
  intro ls
  induction ls using scanPairs.induct with
  | case1 => intro p hp; simp [scanPairs] at hp
  | case2 h => intro p hp; simp [scanPairs] at hp
  | case3 l1 l2 rest2 hcond ih =>
    intro p hp
    simp only [scanPairs, if_pos hcond] at hp
    rcases List.mem_cons.mp hp with rfl | h
    · have h2 := hcond
      rw [Bool.and_eq_true] at h2
      exact h2
    · exact ih p h
  | case4 l1 l2 rest2 hcond ih =>
    intro p hp
    simp only [scanPairs, if_neg hcond] at hp
    exact ih p hp

lemma scanPairs_adjacent :
    ∀ (ls : List String), ∀ p ∈ scanPairs ls,
      ∃ pre suf, ls = pre ++ p.1 :: p.2 :: suf := by
  intro ls
  induction ls using scanPairs.induct with
  | case1 => intro p hp; simp [scanPairs] at hp
  | case2 h => intro p hp; simp [scanPairs] at hp
  | case3 l1 l2 rest2 hcond ih =>
    intro p hp
    simp only [scanPairs, if_pos hcond] at hp
    rcases List.mem_cons.mp hp with rfl | h
    · exact ⟨[], rest2, rfl⟩
    · obtain ⟨pre, suf, heq⟩ := ih p h
      exact ⟨l1 :: l2 :: pre, suf, by rw [heq]; rfl⟩
  | case4 l1 l2 rest2 hcond ih =>
    intro p hp
    simp only [scanPairs, if_neg hcond] at hp
    obtain ⟨pre, suf, heq⟩ := ih p hp
    exact ⟨l1 :: pre, suf, by rw [List.cons_append, ← heq]⟩

lemma scanPairs_sublist :
    ∀ (ls : List String), (pairFlatten (scanPairs ls)).Sublist ls := by
  intro ls
  induction ls using scanPairs.induct with
  | case1 => simp [scanPairs, pairFlatten]
  | case2 h => simp [scanPairs, pairFlatten]
  | case3 l1 l2 rest2 hcond ih =>
    simp only [scanPairs, if_pos hcond, pairFlatten]
    exact (ih.cons₂ _).cons₂ _
  | case4 l1 l2 rest2 hcond ih =>
    simp only [scanPairs, if_neg hcond]
    exact ih.cons _

/-! ## Supporting lemmas: epoch normalization -/

lemma epochDecompose_eq (yy ddd : ℤ) (frac : ℚ)
    (h0 : 0 ≤ ddd) (h1 : 0 ≤ frac) (h2 : frac < 1) :
    epochDecompose ((yy : ℚ) * 1000 + (ddd : ℚ) + frac) yy =
      ⟨2000 + yy, ddd, frac, (ddd : ℚ) - 1 + frac⟩ := by
  have heff : (yy : ℚ) * 1000 + (ddd : ℚ) + frac - (yy : ℚ) * 1000 =
      (ddd : ℚ) + frac := by ring
  have hnn : (0 : ℚ) ≤ (ddd : ℚ) + frac :=
    add_nonneg (by exact_mod_cast h0) h1
  have hfl : ⌊(ddd : ℚ) + frac⌋ = ddd := by
    rw [Int.floor_int_add, Int.floor_eq_zero_iff.mpr (Set.mem_Ico.mpr ⟨h1, h2⟩)]
    ring
  simp only [epochDecompose, pythonIntTrunc]
  rw [heff, if_pos hnn, hfl]
  simp only [EpochTimestamp.mk.injEq]
  refine ⟨?_, ?_, ?_, ?_⟩
  all_goals first
  | trivial
  | ring

lemma epochDecompose_concrete :
    epochDecompose (25143 + 57154119 / 10 ^ 8 : ℚ) 25 =
      ⟨2025, 143, 57154119 / 10 ^ 8, 142 + 57154119 / 10 ^ 8⟩ := by
  have h := epochDecompose_eq 25 143 (57154119 / 10 ^ 8)
    (by norm_num) (by norm_num) (by norm_num)
  rw [show (25143 + 57154119 / 10 ^ 8 : ℚ) =
      ((25 : ℤ) : ℚ) * 1000 + ((143 : ℤ) : ℚ) + 57154119 / 10 ^ 8 by
    push_cast; norm_num] at *
  rw [h]
  simp only [EpochTimestamp.mk.injEq]
  refine ⟨?_, ?_, ?_, ?_⟩
  all_goals first
  | trivial
  | norm_num

lemma normalizeEpochField_concrete :
    normalizeEpochField "25143.57154119" =
      some ⟨2025, 143, 57154119 / 10 ^ 8, 142 + 57154119 / 10 ^ 8⟩ := by
  have h1 : parseFloat "25143.57154119" = some (25143 + 57154119 / 10 ^ 8 : ℚ) := by
    simp +decide [parseFloat, pyStripChars, dropLeadingWs, parseUnsigned, digitRun,
      digitsVal]
  have h2 : pyInt ((takeUntilDot "25143.57154119".data).take 2) = some 25 := by
    simp +decide [pyInt, pyStripChars, dropLeadingWs, takeUntilDot, parseNatDigits,
      digitsVal]
  simp only [normalizeEpochField, h1, h2, Option.bind_some]
  exact congrArg some epochDecompose_concrete

/-! ## The claims -/

/-- Claim C1. For every epoch field string of the form `YYDDD.FFFFFFFF`
(raw value `yy*1000 + ddd + frac` with two-digit year `yy`, three-digit
day `ddd` and fractional part `frac`), the Epoch Normalizer computes
`year = 2000 + yy`, `dayAndFraction = rawValue - yy*1000`,
`dayOfYear = ⌊dayAndFraction⌋`, `fractionOfDay = dayAndFraction -
dayOfYear`, and the timestamp offset `(dayOfYear - 1 + fractionOfDay)`
days past January 1 of the year; in particular `"25143.57154119"`
normalizes to year 2025, day-of-year 143, at `0.57154119 × 86400` seconds
past midnight of day 143. -/
theorem epoch_normalizer_spec :
    (∀ (yy ddd : ℤ) (frac : ℚ), 0 ≤ yy → yy < 100 → 0 ≤ ddd → ddd < 1000 →
        0 ≤ frac → frac < 1 →
        epochDecompose ((yy : ℚ) * 1000 + (ddd : ℚ) + frac) yy =
          ⟨2000 + yy, ddd, frac, (ddd : ℚ) - 1 + frac⟩)
    ∧ normalizeEpochField "25143.57154119" =
        some ⟨2025, 143, 57154119 / 10 ^ 8, 142 + 57154119 / 10 ^ 8⟩
    ∧ (∀ r, normalizeEpochField "25143.57154119" = some r →
        r.year = 2025 ∧ r.dayOfYear = 143 ∧
        r.fracDay * 86400 = (57154119 / 10 ^ 8 : ℚ) * 86400 ∧
        r.offsetDaysFromJan1 = ((143 : ℚ) - 1) + 57154119 / 10 ^ 8) := by
  refine ⟨fun yy ddd frac _ _ h0 _ h1 h2 => epochDecompose_eq yy ddd frac h0 h1 h2,
    normalizeEpochField_concrete, fun r hr => ?_⟩
  rw [normalizeEpochField_concrete, Option.some.injEq] at hr
  subst hr
  refine ⟨rfl, rfl, rfl, by norm_num⟩

/-- Witness for `epoch_normalizer_spec` at `yy = 25`, `ddd = 143`,
`frac = 0.57154119`. -/
theorem epoch_normalizer_spec_witness :
    epochDecompose (((25 : ℤ) : ℚ) * 1000 + ((143 : ℤ) : ℚ) + 57154119 / 10 ^ 8) 25 =
      ⟨2000 + 25, 143, 57154119 / 10 ^ 8, ((143 : ℤ) : ℚ) - 1 + 57154119 / 10 ^ 8⟩ :=
  epoch_normalizer_spec.1 25 143 (57154119 / 10 ^ 8) (by norm_num) (by norm_num)
    (by norm_num) (by norm_num) (by norm_num) (by norm_num)

lemma tsince_ten_half :
    tsince (10 : ℚ) (1/2) = [0, 1/2, 1, 3/2, 2, 5/2, 3, 7/2, 4, 9/2, 5,
      11/2, 6, 13/2, 7, 15/2, 8, 17/2, 9, 19/2, 10] := by
  rw [tsince_eq_map]
  have h : (⌈((10 : ℚ) + 1/2) / (1/2)⌉ : ℤ) = 21 := by
    rw [Int.ceil_eq_iff]
    constructor
    · norm_num
    · norm_num
  rw [h]
  have hr : List.range (21 : ℤ).toNat =
      [0, 1, 2, 3, 4, 5, 6, 7, 8, 9, 10, 11, 12, 13, 14, 15, 16, 17, 18, 19, 20] := by
    rfl
  rw [hr]
  norm_num

lemma tsince_one_two : tsince (1 : ℚ) 2 = [0, 2] := by
  rw [tsince_eq_map]
  have h : (⌈((1 : ℚ) + 2) / 2⌉ : ℤ) = 2 := by
    rw [Int.ceil_eq_iff]
    constructor
    · norm_num
    · norm_num
  rw [h]
  have hr : List.range (2 : ℤ).toNat = [0, 1] := by rfl
  rw [hr]
  norm_num

/-- Claim C2, counterexample. The claim says the grid runs "up to and
including the span S" for every `S ≥ 0` and `h > 0`.  At `S = 1`, `h = 2`
the code's grid `np.arange(0, S + h, h)` is `[0, 2]`: it contains a point
beyond the span and does not contain the span itself, so the claimed grid
shape is false in general. -/
theorem time_grid_counterexample :
    tsince (1 : ℚ) 2 = [0, 2]
    ∧ ¬ (∀ x ∈ tsince (1 : ℚ) 2, x ≤ 1)
    ∧ (1 : ℚ) ∉ tsince (1 : ℚ) 2 := by
  refine ⟨tsince_one_two, ?_, ?_⟩
  · intro hall
    have h2 : (2 : ℚ) ∈ tsince (1 : ℚ) 2 := by
      rw [tsince_one_two]
      simp
    linarith [hall 2 h2]
  · rw [tsince_one_two]
    intro hmem
    rcases List.mem_cons.mp hmem with h | h
    · norm_num at h
    · rcases List.mem_cons.mp h with h1 | h1
      · norm_num at h1
      · exact absurd h1 (List.not_mem_nil 1)

/-- Claim C2, amended. For every span `S ≥ 0` and step `h > 0`, the grid is
the fixed-step strictly increasing sequence `0, h, 2h, …` of all multiples
`k*h < S + h`; its last point lies in `[S, S + h)`, and equals the span
exactly when the span is an integer multiple of the step (the boundary
sample is never stopped one step short, but the grid may overshoot a
non-multiple span by less than one step); in particular for `S = 10`,
`h = 0.5` the grid is exactly the 21 points `0.0` through `10.0`. -/
theorem time_grid_amended (S h : ℚ) (hS : 0 ≤ S) (hh : 0 < h) :
    (∀ x, x ∈ tsince S h ↔ ∃ k : ℕ, x = (k : ℚ) * h ∧ (k : ℚ) * h < S + h)
    ∧ List.Pairwise (· < ·) (tsince S h)
    ∧ (tsince S h).getLast? = some ((⌈S / h⌉ : ℚ) * h)
    ∧ S ≤ (⌈S / h⌉ : ℚ) * h
    ∧ (⌈S / h⌉ : ℚ) * h < S + h
    ∧ (∀ m : ℕ, S = (m : ℚ) * h → (tsince S h).getLast? = some S)
    ∧ tsince (10 : ℚ) (1/2) = [0, 1/2, 1, 3/2, 2, 5/2, 3, 7/2, 4, 9/2, 5,
        11/2, 6, 13/2, 7, 15/2, 8, 17/2, 9, 19/2, 10]
    ∧ (tsince (10 : ℚ) (1/2)).length = 21 := by
  refine ⟨fun x => mem_tsince hh, tsince_pairwise hh, tsince_getLast hS hh,
    le_ceil_mul hh, ceil_mul_lt hh, fun m hm => ?_, tsince_ten_half, ?_⟩
  · rw [tsince_getLast hS hh, ceil_mul_of_multiple hh hm]
  · rw [tsince_ten_half]
    rfl

/-- Witness for `time_grid_amended` at `S = 10`, `h = 1/2`. -/
theorem time_grid_amended_witness :
    (∀ x, x ∈ tsince (10 : ℚ) (1/2) ↔
        ∃ k : ℕ, x = (k : ℚ) * (1/2) ∧ (k : ℚ) * (1/2) < 10 + 1/2)
    ∧ List.Pairwise (· < ·) (tsince (10 : ℚ) (1/2))
    ∧ (tsince (10 : ℚ) (1/2)).getLast? = some ((⌈(10 : ℚ) / (1/2)⌉ : ℚ) * (1/2))
    ∧ (10 : ℚ) ≤ (⌈(10 : ℚ) / (1/2)⌉ : ℚ) * (1/2)
    ∧ (⌈(10 : ℚ) / (1/2)⌉ : ℚ) * (1/2) < 10 + 1/2
    ∧ (∀ m : ℕ, (10 : ℚ) = (m : ℚ) * (1/2) →
        (tsince (10 : ℚ) (1/2)).getLast? = some 10)
    ∧ tsince (10 : ℚ) (1/2) = [0, 1/2, 1, 3/2, 2, 5/2, 3, 7/2, 4, 9/2, 5,
        11/2, 6, 13/2, 7, 15/2, 8, 17/2, 9, 19/2, 10]
    ∧ (tsince (10 : ℚ) (1/2)).length = 21 :=
  time_grid_amended 10 (1/2) (by norm_num) (by norm_num)

/-- Claim C3. For every element set, the orbital period in minutes is
`2π / no_kozai`, the propagation capability's normalized mean motion in
radians per minute (two satellites with the same `no_kozai` get the same
period, whatever their other data); and for `arcPeriods = 2` the sampler's
maximum time offset (the last point of the grid over span `2·T`) equals
`2·T` to within one step size: `2T ≤ last < 2T + h`. -/
theorem period_spec (sat : Satrec ℝ) (h : ℝ) (hn : 0 < sat.no_kozai) (hh : 0 < h) :
    orbit_period_minutes sat = 2 * Real.pi / sat.no_kozai
    ∧ (∀ sat' : Satrec ℝ, sat'.no_kozai = sat.no_kozai →
        orbit_period_minutes sat' = orbit_period_minutes sat)
    ∧ (tsince (2 * orbit_period_minutes sat) h).getLast? =
        some ((⌈2 * orbit_period_minutes sat / h⌉ : ℝ) * h)
    ∧ 2 * orbit_period_minutes sat ≤
        (⌈2 * orbit_period_minutes sat / h⌉ : ℝ) * h
    ∧ (⌈2 * orbit_period_minutes sat / h⌉ : ℝ) * h <
        2 * orbit_period_minutes sat + h := by
  have hT : 0 < orbit_period_minutes sat := by
    unfold orbit_period_minutes
    positivity
  have hS : 0 ≤ 2 * orbit_period_minutes sat := by positivity
  exact ⟨rfl,
    fun sat' hsame => by unfold orbit_period_minutes; rw [hsame],
    tsince_getLast hS hh, le_ceil_mul hh, ceil_mul_lt hh⟩

/-- Witness for `period_spec` at a unit-mean-motion satellite and step 1. -/
theorem period_spec_witness :
    orbit_period_minutes satExample = 2 * Real.pi / satExample.no_kozai
    ∧ (∀ sat' : Satrec ℝ, sat'.no_kozai = satExample.no_kozai →
        orbit_period_minutes sat' = orbit_period_minutes satExample)
    ∧ (tsince (2 * orbit_period_minutes satExample) 1).getLast? =
        some ((⌈2 * orbit_period_minutes satExample / 1⌉ : ℝ) * 1)
    ∧ 2 * orbit_period_minutes satExample ≤
        (⌈2 * orbit_period_minutes satExample / 1⌉ : ℝ) * 1
    ∧ (⌈2 * orbit_period_minutes satExample / 1⌉ : ℝ) * 1 <
        2 * orbit_period_minutes satExample + 1 :=
  period_spec satExample 1 (by norm_num [satExample]) one_pos

/-- Claim C4, counterexample. At a satellite whose propagator fails at every
grid point of the span-1, step-1/2 arc (a nonempty grid), `propagate_arc`
returns the empty trajectory `[]`; no `EmptyTrajectory` (or any other)
error is raised — the function's only outcome is a plain list. -/
theorem empty_trajectory_counterexample :
    propagate_arc failSat 1 (1/2) = []
    ∧ tsince (1 : ℚ) (1/2) ≠ []
    ∧ (∀ dt ∈ tsince (1 : ℚ) (1/2), (sampleAt failSat dt).1 ≠ 0) := by
  have hfail : ∀ dt ∈ tsince (1 : ℚ) (1/2), (sampleAt failSat dt).1 ≠ 0 := by
    intro dt _
    norm_num [sampleAt, failSat]
  refine ⟨propagate_arc_all_fail failSat 1 (1/2) hfail, ?_, hfail⟩
  have h0 : (0 : ℚ) ∈ tsince (1 : ℚ) (1/2) := by
    rw [mem_tsince (by norm_num : (0 : ℚ) < 1/2)]
    exact ⟨0, by norm_num, by norm_num⟩
  exact List.ne_nil_of_mem h0

/-- Claim C4, amended. If the propagator reports a non-zero error code at
every grid point of an arc, `propagate_arc` silently returns the empty
trajectory (the empty list); the code has no `EmptyTrajectory` failure —
the error the spec describes does not exist in `propagate_arc`. -/
theorem empty_trajectory_amended {α : Type} [LinearOrderedField α] [FloorRing α]
    (sat : Satrec α) (minutes step_min : α)
    (hfail : ∀ dt ∈ tsince minutes step_min, (sampleAt sat dt).1 ≠ 0) :
    propagate_arc sat minutes step_min = [] :=
  propagate_arc_all_fail sat minutes step_min hfail

/-- Witness for `empty_trajectory_amended` at an always-failing satellite. -/
theorem empty_trajectory_amended_witness :
    propagate_arc failSatOne 2 1 = [] :=
  empty_trajectory_amended failSatOne 2 1
    (fun dt _ => by norm_num [sampleAt, failSatOne])

/-- Claim C5. Every grid point whose propagator call reports a non-zero error
code is omitted and sampling continues: the returned trajectory is exactly
the positions of the successful grid points, listed in ascending
time-offset order (the successful offsets form a strictly increasing
sequence). -/
theorem failure_isolation_spec {α : Type} [LinearOrderedField α] [FloorRing α]
    (sat : Satrec α) (minutes step_min : α) (hh : 0 < step_min) :
    propagate_arc sat minutes step_min =
      ((tsince minutes step_min).filter fun dt => (sampleAt sat dt).1 == 0).map
        (fun dt => (sampleAt sat dt).2)
    ∧ List.Pairwise (· < ·)
        ((tsince minutes step_min).filter fun dt => (sampleAt sat dt).1 == 0) :=
  ⟨propagate_arc_eq_filter sat minutes step_min,
    (tsince_pairwise hh).sublist (List.filter_sublist _)⟩

/-- Witness for `failure_isolation_spec` at a satellite that fails exactly
at the second grid point. -/
theorem failure_isolation_spec_witness :
    propagate_arc mixedSat 1 (1/2) =
      ((tsince (1 : ℚ) (1/2)).filter fun dt => (sampleAt mixedSat dt).1 == 0).map
        (fun dt => (sampleAt mixedSat dt).2)
    ∧ List.Pairwise (· < ·)
        ((tsince (1 : ℚ) (1/2)).filter fun dt => (sampleAt mixedSat dt).1 == 0) :=
  failure_isolation_spec mixedSat 1 (1/2) (by norm_num)

/-- Claim C6. For every non-empty input line sequence the Record Reader
(a total function — no unhandled error is possible) consumes the stripped
non-blank lines in original order: every produced pair consists of a line
starting with `"1 "` immediately followed by a line starting with `"2 "`
(on a malformed alignment the scan advances by one line and retries), the
paired lines appear in input order, and the reader fails — with the
`No TLE pairs found` error — exactly when zero pairs result. -/
theorem record_reader_spec (rawLines : List String) (_hne : rawLines ≠ []) :
    (read_tle_file rawLines = Except.error "No TLE pairs found" ↔
      scanPairs (cleanLines rawLines) = [])
    ∧ (∀ ps, read_tle_file rawLines = Except.ok ps →
        ps = scanPairs (cleanLines rawLines) ∧ ps ≠ []
        ∧ (∀ p ∈ ps, pyStartsWith p.1 "1 " = true ∧ pyStartsWith p.2 "2 " = true)
        ∧ (∀ p ∈ ps, ∃ pre suf, cleanLines rawLines = pre ++ p.1 :: p.2 :: suf)
        ∧ (pairFlatten ps).Sublist (cleanLines rawLines)) := by
  constructor
  · simp only [read_tle_file]
    by_cases hsc : scanPairs (cleanLines rawLines) = []
    · rw [if_pos hsc]
      simp [hsc]
    · rw [if_neg hsc]
      simp [hsc]
  · intro ps hps
    simp only [read_tle_file] at hps
    by_cases hsc : scanPairs (cleanLines rawLines) = []
    · rw [if_pos hsc] at hps
      exact absurd hps (by simp)
    · rw [if_neg hsc] at hps
      simp only [Except.ok.injEq] at hps
      subst hps
      exact ⟨rfl, hsc, scanPairs_startsWith _, scanPairs_adjacent _,
        scanPairs_sublist _⟩

/-- Witness for `record_reader_spec` on a two-line well-formed input. -/
theorem record_reader_spec_witness :
    (read_tle_file ["1 A", "2 B"] = Except.error "No TLE pairs found" ↔
      scanPairs (cleanLines ["1 A", "2 B"]) = [])
    ∧ (∀ ps, read_tle_file ["1 A", "2 B"] = Except.ok ps →
        ps = scanPairs (cleanLines ["1 A", "2 B"]) ∧ ps ≠ []
        ∧ (∀ p ∈ ps, pyStartsWith p.1 "1 " = true ∧ pyStartsWith p.2 "2 " = true)
        ∧ (∀ p ∈ ps, ∃ pre suf, cleanLines ["1 A", "2 B"] = pre ++ p.1 :: p.2 :: suf)
        ∧ (pairFlatten ps).Sublist (cleanLines ["1 A", "2 B"])) :=
  record_reader_spec ["1 A", "2 B"] (by simp)

/-- Claim C9. For any two nonempty sample lists, the bounding cube computed
from their concatenation has a half-extent (hence a componentwise size,
all three axis extents of the cube being `2·halfExtent`) at least as large
as that of the cube computed from either list alone. -/
theorem bounding_monotone_spec (A B : List (Vec3 ℚ)) (hA : A ≠ []) (hB : B ≠ []) :
    (set_equal_aspect_3d A).halfExtent ≤ (set_equal_aspect_3d (A ++ B)).halfExtent
    ∧ (set_equal_aspect_3d B).halfExtent ≤
        (set_equal_aspect_3d (A ++ B)).halfExtent := by
  have hxA : A.map Vec3.x ≠ [] := by simp [hA]
  have hyA : A.map Vec3.y ≠ [] := by simp [hA]
  have hzA : A.map Vec3.z ≠ [] := by simp [hA]
  have hxB : B.map Vec3.x ≠ [] := by simp [hB]
  have hyB : B.map Vec3.y ≠ [] := by simp [hB]
  have hzB : B.map Vec3.z ≠ [] := by simp [hB]
  constructor
  · simp only [set_equal_aspect_3d, List.map_append]
    refine div_le_div_of_nonneg_right ?_ ?_ |>.trans_eq rfl
    rotate_left
    · norm_num
    · exact max_le_max
        (max_le_max (ptpList_le_append_left hxA) (ptpList_le_append_left hyA))
        (ptpList_le_append_left hzA)
  · simp only [set_equal_aspect_3d, List.map_append]
    refine div_le_div_of_nonneg_right ?_ ?_ |>.trans_eq rfl
    rotate_left
    · norm_num
    · exact max_le_max
        (max_le_max (ptpList_le_append_right hxB) (ptpList_le_append_right hyB))
        (ptpList_le_append_right hzB)

/-- Witness for `bounding_monotone_spec` at two concrete one-point lists. -/
theorem bounding_monotone_spec_witness :
    (set_equal_aspect_3d [(⟨0, 0, 0⟩ : Vec3 ℚ)]).halfExtent ≤
        (set_equal_aspect_3d ([(⟨0, 0, 0⟩ : Vec3 ℚ)] ++ [(⟨2, 1, 0⟩ : Vec3 ℚ)])).halfExtent
    ∧ (set_equal_aspect_3d [(⟨2, 1, 0⟩ : Vec3 ℚ)]).halfExtent ≤
        (set_equal_aspect_3d ([(⟨0, 0, 0⟩ : Vec3 ℚ)] ++ [(⟨2, 1, 0⟩ : Vec3 ℚ)])).halfExtent :=
  bounding_monotone_spec [⟨0, 0, 0⟩] [⟨2, 1, 0⟩] (by simp) (by simp)

/-- Claim C8. For every nonempty sample list the computed bounding cube has
`halfExtent` equal to half the largest single-axis extent, center at each
axis's midpoint of min and max, and every sample coordinate lies within
`[center - halfExtent, center + halfExtent]` on every axis. -/
theorem bounding_cube_spec (X : List (Vec3 ℚ)) (_hne : X ≠ []) :
    (set_equal_aspect_3d X).halfExtent =
      max (max (ptpList (X.map Vec3.x)) (ptpList (X.map Vec3.y)))
        (ptpList (X.map Vec3.z)) / 2
    ∧ (set_equal_aspect_3d X).center.x =
        (listMax (X.map Vec3.x) + listMin (X.map Vec3.x)) / 2
    ∧ (set_equal_aspect_3d X).center.y =
        (listMax (X.map Vec3.y) + listMin (X.map Vec3.y)) / 2
    ∧ (set_equal_aspect_3d X).center.z =
        (listMax (X.map Vec3.z) + listMin (X.map Vec3.z)) / 2
    ∧ ∀ p ∈ X,
        ((set_equal_aspect_3d X).center.x - (set_equal_aspect_3d X).halfExtent ≤ p.x
          ∧ p.x ≤ (set_equal_aspect_3d X).center.x + (set_equal_aspect_3d X).halfExtent)
        ∧ ((set_equal_aspect_3d X).center.y - (set_equal_aspect_3d X).halfExtent ≤ p.y
          ∧ p.y ≤ (set_equal_aspect_3d X).center.y + (set_equal_aspect_3d X).halfExtent)
        ∧ ((set_equal_aspect_3d X).center.z - (set_equal_aspect_3d X).halfExtent ≤ p.z
          ∧ p.z ≤ (set_equal_aspect_3d X).center.z + (set_equal_aspect_3d X).halfExtent) := by
  refine ⟨rfl, rfl, rfl, rfl, ?_⟩
  intro p hp
  have hx1 : p.x ≤ listMax (X.map Vec3.x) := le_listMax (List.mem_map_of_mem Vec3.x hp)
  have hx2 : listMin (X.map Vec3.x) ≤ p.x := listMin_le (List.mem_map_of_mem Vec3.x hp)
  have hy1 : p.y ≤ listMax (X.map Vec3.y) := le_listMax (List.mem_map_of_mem Vec3.y hp)
  have hy2 : listMin (X.map Vec3.y) ≤ p.y := listMin_le (List.mem_map_of_mem Vec3.y hp)
  have hz1 : p.z ≤ listMax (X.map Vec3.z) := le_listMax (List.mem_map_of_mem Vec3.z hp)
  have hz2 : listMin (X.map Vec3.z) ≤ p.z := listMin_le (List.mem_map_of_mem Vec3.z hp)
  have hrx : ptpList (X.map Vec3.x) ≤
      max (max (ptpList (X.map Vec3.x)) (ptpList (X.map Vec3.y)))
        (ptpList (X.map Vec3.z)) :=
    le_trans (le_max_left _ _) (le_max_left _ _)
  have hry : ptpList (X.map Vec3.y) ≤
      max (max (ptpList (X.map Vec3.x)) (ptpList (X.map Vec3.y)))
        (ptpList (X.map Vec3.z)) :=
    le_trans (le_max_right _ _) (le_max_left _ _)
  have hrz : ptpList (X.map Vec3.z) ≤
      max (max (ptpList (X.map Vec3.x)) (ptpList (X.map Vec3.y)))
        (ptpList (X.map Vec3.z)) :=
    le_max_right _ _
  have hex : ptpList (X.map Vec3.x) =
      listMax (X.map Vec3.x) - listMin (X.map Vec3.x) := rfl
  have hey : ptpList (X.map Vec3.y) =
      listMax (X.map Vec3.y) - listMin (X.map Vec3.y) := rfl
  have hez : ptpList (X.map Vec3.z) =
      listMax (X.map Vec3.z) - listMin (X.map Vec3.z) := rfl
  simp only [set_equal_aspect_3d]
  refine ⟨⟨?_, ?_⟩, ⟨?_, ?_⟩, ⟨?_, ?_⟩⟩
  · linarith [hx2, hrx, hex]
  · linarith [hx1, hrx, hex]
  · linarith [hy2, hry, hey]
  · linarith [hy1, hry, hey]
  · linarith [hz2, hrz, hez]
  · linarith [hz1, hrz, hez]

/-- Witness for `bounding_cube_spec` on a two-point sample list. -/
theorem bounding_cube_spec_witness :
    (set_equal_aspect_3d [(⟨0, 0, 0⟩ : Vec3 ℚ), ⟨2, 1, 0⟩]).halfExtent =
      max (max (ptpList (([(⟨0, 0, 0⟩ : Vec3 ℚ), ⟨2, 1, 0⟩]).map Vec3.x))
          (ptpList (([(⟨0, 0, 0⟩ : Vec3 ℚ), ⟨2, 1, 0⟩]).map Vec3.y)))
        (ptpList (([(⟨0, 0, 0⟩ : Vec3 ℚ), ⟨2, 1, 0⟩]).map Vec3.z)) / 2
    ∧ (set_equal_aspect_3d [(⟨0, 0, 0⟩ : Vec3 ℚ), ⟨2, 1, 0⟩]).center.x =
        (listMax (([(⟨0, 0, 0⟩ : Vec3 ℚ), ⟨2, 1, 0⟩]).map Vec3.x)
          + listMin (([(⟨0, 0, 0⟩ : Vec3 ℚ), ⟨2, 1, 0⟩]).map Vec3.x)) / 2
    ∧ (set_equal_aspect_3d [(⟨0, 0, 0⟩ : Vec3 ℚ), ⟨2, 1, 0⟩]).center.y =
        (listMax (([(⟨0, 0, 0⟩ : Vec3 ℚ), ⟨2, 1, 0⟩]).map Vec3.y)
          + listMin (([(⟨0, 0, 0⟩ : Vec3 ℚ), ⟨2, 1, 0⟩]).map Vec3.y)) / 2
    ∧ (set_equal_aspect_3d [(⟨0, 0, 0⟩ : Vec3 ℚ), ⟨2, 1, 0⟩]).center.z =
        (listMax (([(⟨0, 0, 0⟩ : Vec3 ℚ), ⟨2, 1, 0⟩]).map Vec3.z)
          + listMin (([(⟨0, 0, 0⟩ : Vec3 ℚ), ⟨2, 1, 0⟩]).map Vec3.z)) / 2
    ∧ ∀ p ∈ [(⟨0, 0, 0⟩ : Vec3 ℚ), ⟨2, 1, 0⟩],
        ((set_equal_aspect_3d [(⟨0, 0, 0⟩ : Vec3 ℚ), ⟨2, 1, 0⟩]).center.x
            - (set_equal_aspect_3d [(⟨0, 0, 0⟩ : Vec3 ℚ), ⟨2, 1, 0⟩]).halfExtent ≤ p.x
          ∧ p.x ≤ (set_equal_aspect_3d [(⟨0, 0, 0⟩ : Vec3 ℚ), ⟨2, 1, 0⟩]).center.x
            + (set_equal_aspect_3d [(⟨0, 0, 0⟩ : Vec3 ℚ), ⟨2, 1, 0⟩]).halfExtent)
        ∧ ((set_equal_aspect_3d [(⟨0, 0, 0⟩ : Vec3 ℚ), ⟨2, 1, 0⟩]).center.y
            - (set_equal_aspect_3d [(⟨0, 0, 0⟩ : Vec3 ℚ), ⟨2, 1, 0⟩]).halfExtent ≤ p.y
          ∧ p.y ≤ (set_equal_aspect_3d [(⟨0, 0, 0⟩ : Vec3 ℚ), ⟨2, 1, 0⟩]).center.y
            + (set_equal_aspect_3d [(⟨0, 0, 0⟩ : Vec3 ℚ), ⟨2, 1, 0⟩]).halfExtent)
        ∧ ((set_equal_aspect_3d [(⟨0, 0, 0⟩ : Vec3 ℚ), ⟨2, 1, 0⟩]).center.z
            - (set_equal_aspect_3d [(⟨0, 0, 0⟩ : Vec3 ℚ), ⟨2, 1, 0⟩]).halfExtent ≤ p.z
          ∧ p.z ≤ (set_equal_aspect_3d [(⟨0, 0, 0⟩ : Vec3 ℚ), ⟨2, 1, 0⟩]).center.z
            + (set_equal_aspect_3d [(⟨0, 0, 0⟩ : Vec3 ℚ), ⟨2, 1, 0⟩]).halfExtent) :=
  bounding_cube_spec [⟨0, 0, 0⟩, ⟨2, 1, 0⟩] (by simp)

lemma findEpochField_concrete :
    findEpochField lineOneExample.data = some "25143.57154119".data := by
  decide

lemma extractElements_concrete :
    extractElements lineOneExample lineTwoExample = some exampleElements := by
  have hepoch : normalizeEpochField ⟨"25143.57154119".data⟩ =
      some ⟨2025, 143, 57154119 / 10 ^ 8, 142 + 57154119 / 10 ^ 8⟩ :=
    normalizeEpochField_concrete
  have hincl : parseFloat (pySlice lineTwoExample 8 16) =
      some (82 + 9706 / 10 ^ 4 : ℚ) := by
    simp +decide [parseFloat, pySlice, pyStripChars, dropLeadingWs, parseUnsigned,
      digitRun, digitsVal, lineTwoExample]
  have hraan : parseFloat (pySlice lineTwoExample 17 25) =
      some (123 + 4567 / 10 ^ 4 : ℚ) := by
    simp +decide [parseFloat, pySlice, pyStripChars, dropLeadingWs, parseUnsigned,
      digitRun, digitsVal, lineTwoExample]
  have hecc : parseFloat (pyConcat "0." (pyStrip (pySlice lineTwoExample 26 33))) =
      some (0 + 1234 / 10 ^ 7 : ℚ) := by
    simp +decide [parseFloat, pyConcat, pyStrip, pySlice, pyStripChars, dropLeadingWs,
      parseUnsigned, digitRun, digitsVal, lineTwoExample]
  have hargp : parseFloat (pySlice lineTwoExample 34 42) =
      some (90 + 1234 / 10 ^ 4 : ℚ) := by
    simp +decide [parseFloat, pySlice, pyStripChars, dropLeadingWs, parseUnsigned,
      digitRun, digitsVal, lineTwoExample]
  have hman : parseFloat (pySlice lineTwoExample 43 51) =
      some (270 + 0 / 10 ^ 4 : ℚ) := by
    simp +decide [parseFloat, pySlice, pyStripChars, dropLeadingWs, parseUnsigned,
      digitRun, digitsVal, lineTwoExample]
  have hmm : parseFloat (pySlice lineTwoExample 52 63) =
      some (12 + 40123456 / 10 ^ 8 : ℚ) := by
    simp +decide [parseFloat, pySlice, pyStripChars, dropLeadingWs, parseUnsigned,
      digitRun, digitsVal, lineTwoExample]
  simp only [extractElements, bind, Option.bind, findEpochField_concrete,
    hepoch, hincl, hraan, hecc, hargp, hman, hmm, Option.pure_def]
  rfl

/-- Claim C7. For every line-pair that the extractor accepts, the extracted
numeric fields equal the literal fixed-column substrings of line 2 parsed
as floats — inclination `line2[8:16]`, RAAN `line2[17:25]`, argument of
perigee `line2[34:42]`, mean anomaly `line2[43:51]`, mean motion
`line2[52:63]` — and eccentricity equals the float obtained by prefixing
`"0."` to the stripped substring `line2[26:33]`. -/
theorem field_extraction_spec (line1 line2 : String) (es : TLEElements)
    (h : extractElements line1 line2 = some es) :
    parseFloat (pySlice line2 8 16) = some es.incl
    ∧ parseFloat (pySlice line2 17 25) = some es.raan
    ∧ parseFloat (pyConcat "0." (pyStrip (pySlice line2 26 33))) = some es.ecc
    ∧ parseFloat (pySlice line2 34 42) = some es.argp
    ∧ parseFloat (pySlice line2 43 51) = some es.mean_anom
    ∧ parseFloat (pySlice line2 52 63) = some es.mean_motion := by
  unfold extractElements at h
  simp only [bind, Option.bind] at h
  split at h
  · exact absurd h (by simp)
  · simp only [] at h
    split at h
    · exact absurd h (by simp)
    · simp only [] at h
      split at h
      · exact absurd h (by simp)
      · simp only [] at h
        split at h
        · exact absurd h (by simp)
        · simp only [] at h
          split at h
          · exact absurd h (by simp)
          · simp only [] at h
            split at h
            · exact absurd h (by simp)
            · simp only [] at h
              split at h
              · exact absurd h (by simp)
              · simp only [] at h
                split at h
                · exact absurd h (by simp)
                · simp only [] at h
                  simp only [Option.pure_def, Option.some.injEq] at h
                  subst h
                  refine ⟨?_, ?_, ?_, ?_, ?_, ?_⟩ <;> assumption

/-- Witness for `field_extraction_spec` on the concrete line-pair
`lineOneExample`/`lineTwoExample`. -/
theorem field_extraction_spec_witness :
    parseFloat (pySlice lineTwoExample 8 16) = some exampleElements.incl
    ∧ parseFloat (pySlice lineTwoExample 17 25) = some exampleElements.raan
    ∧ parseFloat (pyConcat "0." (pyStrip (pySlice lineTwoExample 26 33))) =
        some exampleElements.ecc
    ∧ parseFloat (pySlice lineTwoExample 34 42) = some exampleElements.argp
    ∧ parseFloat (pySlice lineTwoExample 43 51) = some exampleElements.mean_anom
    ∧ parseFloat (pySlice lineTwoExample 52 63) = some exampleElements.mean_motion :=
  field_extraction_spec lineOneExample lineTwoExample exampleElements
    extractElements_concrete

/-- Claim C10. The rendered trajectory data is determined solely by the last
line-pair the reader extracts: for any two inputs whose realigned pair
sequences end in the same pair, the propagated positions, the reported
inclination and the reported period are identical — earlier records have
no effect. -/
theorem latest_tle_determinism_spec (twoline2rv : String → String → Satrec ℝ)
    (ls1 ls2 : List String) (ps1 ps2 : List (String × String))
    (arc_periods step_min : ℝ)
    (h1 : read_tle_file ls1 = Except.ok ps1)
    (h2 : read_tle_file ls2 = Except.ok ps2)
    (hlast : ps1.getLast? = ps2.getLast?) :
    render_orbit_data twoline2rv ls1 arc_periods step_min =
      render_orbit_data twoline2rv ls2 arc_periods step_min := by
  unfold render_orbit_data
  rw [h1, h2]
  simp only [hlast]

/-- Witness for `latest_tle_determinism_spec`: prepending a junk line does
not change the rendered data. -/
theorem latest_tle_determinism_spec_witness :
    render_orbit_data (fun _ _ => satExample) ["1 A", "2 B"] 2 (1/2) =
      render_orbit_data (fun _ _ => satExample) ["x", "1 A", "2 B"] 2 (1/2) :=
  latest_tle_determinism_spec (fun _ _ => satExample) ["1 A", "2 B"]
    ["x", "1 A", "2 B"] [("1 A", "2 B")] [("1 A", "2 B")] 2 (1/2)
    (by simp +decide [read_tle_file, cleanLines, scanPairs, pyStrip, pyStripChars,
      dropLeadingWs, pyStartsWith, startsWithChars])
    (by simp +decide [read_tle_file, cleanLines, scanPairs, pyStrip, pyStripChars,
      dropLeadingWs, pyStartsWith, startsWithChars])
    rfl
